import Mathlib

/-!
Shallow embedding of the micro-frontend communication layer of
`angular-microfrontends-poc`.

The code under verification lives in
`src/unnamed/part_003` (`MicroFrontendsCommunicationService`, with
`createApiForMicroFrontend` producing `getMessages`, `getLatestMessage`
and `sendMessage`, the `message-event` listener `setupCommunication`,
and `sendMessageToMicroFrontend`) and in
`src/workspaces/feature-two-app/src/app/services/communication-service.ts`
(`CommunicationService.sendMessageTo`, `setupMessageListener`).

Modelling decisions, each justified by the JavaScript semantics of the source:
* `MicroFrontendMessage` mirrors the record literal built in `sendMessage`;
  the payload type is a parameter `α` (the source is generic in `T`), and
  `Date.now()` is modelled by an explicit `now : Nat` argument.
* `Array.prototype.filter` returns a fresh array and `Array.prototype.sort`
  (ES2019 and later, hence stable) mutates only that fresh copy, so
  `getMessages`/`getLatestMessage` are pure functions of the store and the
  stable descending-by-timestamp sort is embedded as a stable insertion sort.
* The optional `filterType` parameter is an `Option String`; JavaScript
  truthiness (`!filterType`) holds for both `undefined` and `""`.
* `window.CentralizedAPI` is `apiOwners : Option (List String)`: `none`
  before `init`, afterwards `some` of the list of registered owner keys.
* The `Map` of Angular signals is modelled by its value assignment: an
  association list from key to the signal's current value, where
  `Map.set` replaces in place (`setSignal`) and a missing key reads as the
  initial `undefined` (`signalValue`).
* `window.dispatchEvent(new CustomEvent('message-event', ...))` is recorded
  in an event log `dispatchedEvents`; the two listeners of that event are
  embedded separately as `handleMessageEvent` (the shell service) and
  `subscriberHandleEvent` (a feature app's `CommunicationService`).
* `console.warn` appends to a `warnings` log.
-/

/-- Message record, mirroring the object literal constructed in
`createApiForMicroFrontend.sendMessage` and the `MicroFrontendMessage<T>`
shape from shared-types: source, target, category string, payload, and
creation timestamp. -/
structure MicroFrontendMessage (α : Type) where
  «from» : String
  «to» : String
  type : String
  payload : α
  timestamp : Nat
deriving Repr, DecidableEq

/-- Truthiness of the optional string `filterType` in JavaScript:
`!filterType` is true exactly when the argument is `undefined` or `""`. -/
def strOptFalsy : Option String → Bool
  | none => true
  | some s => s == ""

/-- Embedding of `getMessages` (part_003 lines 70-74): filter the store by
`msg.to === owner && (!filterType || msg.type === filterType)`. -/
def getMessages {α : Type} (owner : String) (store : List (MicroFrontendMessage α))
    (filterType : Option String) : List (MicroFrontendMessage α) :=
  store.filter fun msg => msg.«to» == owner && (strOptFalsy filterType || filterType == some msg.type)

/-- One step of the stable insertion sort embedding the comparator
`(a, b) => b.timestamp - a.timestamp`: `a` is placed before the first
element whose timestamp is less than or equal to `a.timestamp`, so among
equal timestamps the earlier element of the original list stays first,
exactly as an ES2019 stable sort behaves. -/
def tsInsert {α : Type} (a : MicroFrontendMessage α) :
    List (MicroFrontendMessage α) → List (MicroFrontendMessage α)
  | [] => [a]
  | b :: l => if b.timestamp ≤ a.timestamp then a :: b :: l else b :: tsInsert a l

/-- Stable sort by strictly descending timestamp, the embedding of
`.sort((a, b) => b.timestamp - a.timestamp)` on a freshly filtered copy. -/
def sortByTimestampDesc {α : Type} :
    List (MicroFrontendMessage α) → List (MicroFrontendMessage α)
  | [] => []
  | b :: l => tsInsert b (sortByTimestampDesc l)

/-- The records of the store matching the exact (owner, type) pair, the
filter step of `getLatestMessage` (part_003 lines 78-80). -/
def matchingMessages {α : Type} (owner type : String)
    (store : List (MicroFrontendMessage α)) : List (MicroFrontendMessage α) :=
  store.filter fun msg => msg.«to» == owner && msg.type == type

/-- Embedding of `getLatestMessage` (part_003 lines 76-83): filter by
(owner, type), sort the copy by descending timestamp, return element 0
(`undefined`, i.e. `none`, on the empty array). -/
def getLatestMessage {α : Type} (owner type : String)
    (store : List (MicroFrontendMessage α)) : Option (MicroFrontendMessage α) :=
  (sortByTimestampDesc (matchingMessages owner type store)).head?

/-- The shell's own registry key, `SHELL_NAME = 'application-shell'`. -/
def SHELL_NAME : String := "application-shell"

/-- The pieces of browser-global and service state the claims are about:
the registry `window.CentralizedAPI` (`none` before `init`), the service's
`messageStore`, the value assignment of the `messageSignals` map, the log
of dispatched `message-event` notifications, and the log of
`console.warn` calls. -/
structure World (α : Type) where
  apiOwners : Option (List String)
  messageStore : List (MicroFrontendMessage α)
  messageSignals : List (String × Option (MicroFrontendMessage α))
  dispatchedEvents : List (MicroFrontendMessage α)
  warnings : List String
deriving Repr, DecidableEq

/-- The state before the shell runs: no registry, empty store, no signals
set, nothing dispatched, nothing warned. -/
def emptyWorld {α : Type} : World α :=
  { apiOwners := none, messageStore := [], messageSignals := [],
    dispatchedEvents := [], warnings := [] }

/-- The record literal built in `sendMessage`: `from` is the owner the API
handle was created for, `to`/`type`/`payload` are the arguments, and the
timestamp is the current time. -/
def mkMessage {α : Type} (owner target type : String) (payload : α) (now : Nat) :
    MicroFrontendMessage α :=
  { «from» := owner, «to» := target, type := type, payload := payload, timestamp := now }

/-- Embedding of `createApiForMicroFrontend(owner).sendMessage` (part_003
lines 85-107): build the record, push it onto the store, and dispatch one
`message-event` carrying it. -/
def sendMessage {α : Type} (owner target type : String) (payload : α) (now : Nat)
    (w : World α) : World α :=
  { w with
    messageStore := w.messageStore ++ [mkMessage owner target type payload now],
    dispatchedEvents := w.dispatchedEvents ++ [mkMessage owner target type payload now] }

/-- Whether `window.CentralizedAPI?.[name]` is defined: the registry exists
and holds the key. -/
def apiAvailable {α : Type} (name : String) (w : World α) : Bool :=
  match w.apiOwners with
  | none => false
  | some owners => owners.contains name

/-- Embedding of `MicroFrontendsCommunicationService.sendMessageToMicroFrontend`
(part_003 lines 154-161): if the shell's API handle exists, send through it;
otherwise `console.warn` and do nothing else. -/
def sendMessageToMicroFrontend {α : Type} (targetMf type : String) (payload : α)
    (now : Nat) (w : World α) : World α :=
  if apiAvailable SHELL_NAME w then
    sendMessage SHELL_NAME targetMf type payload now w
  else
    { w with warnings := w.warnings ++
        ["Shell API not available. Make sure the communication service is initialized."] }

/-- Embedding of `CommunicationService.sendMessageTo` of feature-two-app
(communication-service.ts lines 38-48): if this app's API handle exists,
`api.sendMessage(to, type, message)`; otherwise warn and do nothing else. -/
def sendMessageTo {α : Type} (appName : String) (message : α) (target type : String)
    (now : Nat) (w : World α) : World α :=
  if apiAvailable appName w then
    sendMessage appName target type message now w
  else
    { w with warnings := w.warnings ++
        [appName ++ " API not available. Make sure the application shell has initialized the communication API."] }

/-- Replacement in an association list, the value-level effect of
`Map.prototype.set`: overwrite the first binding of the key in place, or
append a new binding at the end. -/
def setSignal {α : Type} (key : String) (val : Option (MicroFrontendMessage α)) :
    List (String × Option (MicroFrontendMessage α)) →
    List (String × Option (MicroFrontendMessage α))
  | [] => [(key, val)]
  | (k, v) :: rest => if k == key then (key, val) :: rest else (k, v) :: setSignal key val rest

/-- Current value of the signal stored under a key: the first binding, or
the initial `undefined` when the key was never set. -/
def signalValue {α : Type} (key : String) :
    List (String × Option (MicroFrontendMessage α)) → Option (MicroFrontendMessage α)
  | [] => none
  | (k, v) :: rest => if k == key then v else signalValue key rest

/-- Embedding of the shell's `message-event` listener installed by
`setupCommunication` (part_003 lines 113-146): set the signal keyed
`from:to:type` to the message, then also set the signal keyed
`from:to:default` to the same message. -/
def handleMessageEvent {α : Type} (m : MicroFrontendMessage α) (w : World α) : World α :=
  { w with messageSignals :=
      (setSignal (m.«from» ++ ":" ++ m.«to» ++ ":default") (some m)
        (setSignal (m.«from» ++ ":" ++ m.«to» ++ ":" ++ m.type) (some m) w.messageSignals)) }

/-- Local state of a feature app's `CommunicationService`: its identity and
the value of its `messages` signal. -/
structure SubscriberState (α : Type) where
  appName : String
  messages : List (MicroFrontendMessage α)
deriving Repr, DecidableEq

/-- Embedding of feature-two's `setupMessageListener` handler
(communication-service.ts lines 53-71): append the message to the local
list exactly when `message.to === this.appName`. -/
def subscriberHandleEvent {α : Type} (m : MicroFrontendMessage α)
    (s : SubscriberState α) : SubscriberState α :=
  if m.«to» == s.appName then { s with messages := s.messages ++ [m] } else s

/-- The operations of the communication service whose effect on the shared
state the invariant claims quantify over. `getMsgs` and `getLatest` operate
on a freshly filtered copy of the store, so their effect on the state is
the identity; `initApi` is `init`, which publishes the registry with one
key per micro frontend plus the shell's own. -/
inductive ServiceOp (α : Type) where
  | send (owner target type : String) (payload : α) (now : Nat)
  | sendToMf (targetMf type : String) (payload : α) (now : Nat)
  | sendTo (appName : String) (message : α) (target type : String) (now : Nat)
  | getMsgs (owner : String) (filterType : Option String)
  | getLatest (owner type : String)
  | handleEvt (m : MicroFrontendMessage α)
  | initApi (microfrontends : List String)

/-- State transition of each operation. -/
def step {α : Type} : ServiceOp α → World α → World α
  | .send owner target type payload now, w => sendMessage owner target type payload now w
  | .sendToMf targetMf type payload now, w => sendMessageToMicroFrontend targetMf type payload now w
  | .sendTo appName message target type now, w => sendMessageTo appName message target type now w
  | .getMsgs _ _, w => w
  | .getLatest _ _, w => w
  | .handleEvt m, w => handleMessageEvent m w
  | .initApi microfrontends, w => { w with apiOwners := some (microfrontends ++ [SHELL_NAME]) }

/-- One publish call, for quantifying over sequences of `sendMessage`. -/
structure PublishCall (α : Type) where
  owner : String
  target : String
  type : String
  payload : α
  now : Nat

/-- The record a publish call constructs. -/
def PublishCall.message {α : Type} (c : PublishCall α) : MicroFrontendMessage α :=
  mkMessage c.owner c.target c.type c.payload c.now

/-- Run a sequence of publish calls against a world. -/
def publishAll {α : Type} (calls : List (PublishCall α)) (w : World α) : World α :=
  calls.foldl (fun w c => sendMessage c.owner c.target c.type c.payload c.now w) w

/-- Pick between the head of a list and the first maximum of its tail: keep
the head unless the tail's first maximum has a strictly larger timestamp. -/
def pickNewer {α : Type} (x : MicroFrontendMessage α) :
    Option (MicroFrontendMessage α) → MicroFrontendMessage α
  | none => x
  | some y => if y.timestamp ≤ x.timestamp then x else y

/-- First element of the list attaining the maximal timestamp, the reference
value the sorted head is compared against. -/
def firstMaxByTimestamp {α : Type} :
    List (MicroFrontendMessage α) → Option (MicroFrontendMessage α)
  | [] => none
  | x :: xs => some (pickNewer x (firstMaxByTimestamp xs))

theorem head?_tsInsert {α : Type} (a : MicroFrontendMessage α)
    (l : List (MicroFrontendMessage α)) :
    (tsInsert a l).head? =
      match l.head? with
      | none => some a
      | some b => if b.timestamp ≤ a.timestamp then some a else some b := by
  cases l with
  | nil => rfl
  | cons b t =>
    simp only [tsInsert, List.head?_cons]
    split <;> simp

theorem head?_sortByTimestampDesc {α : Type} (l : List (MicroFrontendMessage α)) :
    (sortByTimestampDesc l).head? = firstMaxByTimestamp l := by
  induction l with
  | nil => rfl
  | cons x xs ih =>
    cases hxs : firstMaxByTimestamp xs with
    | none =>
      rw [hxs] at ih
      simp [sortByTimestampDesc, head?_tsInsert, ih, firstMaxByTimestamp, hxs, pickNewer]
    | some y =>
      rw [hxs] at ih
      simp [sortByTimestampDesc, head?_tsInsert, ih, firstMaxByTimestamp, hxs, pickNewer]
      split <;> rfl

theorem firstMaxByTimestamp_eq_none {α : Type} (l : List (MicroFrontendMessage α)) :
    firstMaxByTimestamp l = none ↔ l = [] := by
  cases l with
  | nil => simp [firstMaxByTimestamp]
  | cons x xs => simp [firstMaxByTimestamp]

theorem firstMaxByTimestamp_spec {α : Type} (l : List (MicroFrontendMessage α)) :
    ∀ r, firstMaxByTimestamp l = some r →
      ∃ l1 l2, l = l1 ++ r :: l2 ∧
        (∀ x ∈ l1, x.timestamp < r.timestamp) ∧
        (∀ x ∈ l, x.timestamp ≤ r.timestamp) := by
  induction l with
  | nil => intro r h; simp [firstMaxByTimestamp] at h
  | cons x xs ih =>
    intro r h
    simp only [firstMaxByTimestamp, Option.some.injEq] at h
    cases hxs : firstMaxByTimestamp xs with
    | none =>
      rw [hxs] at h
      simp only [pickNewer] at h
      obtain rfl : x = r := h
      obtain rfl : xs = [] := (firstMaxByTimestamp_eq_none xs).mp hxs
      exact ⟨[], [], rfl, by simp, by simp⟩
    | some y =>
      rw [hxs] at h
      simp only [pickNewer] at h
      obtain ⟨l1, l2, hsplit, hlt, hle⟩ := ih y hxs
      by_cases hy : y.timestamp ≤ x.timestamp
      · rw [if_pos hy] at h
        obtain rfl : x = r := h
        refine ⟨[], xs, rfl, by simp, ?_⟩
        intro z hz
        rcases List.mem_cons.mp hz with hz | hz
        · exact hz ▸ Nat.le_refl _
        · exact Nat.le_trans (hle z hz) hy
      · rw [if_neg hy] at h
        obtain rfl : y = r := h
        refine ⟨x :: l1, l2, by rw [hsplit]; simp, ?_, ?_⟩
        · intro z hz
          rcases List.mem_cons.mp hz with hz | hz
          · exact hz ▸ Nat.lt_of_not_le hy
          · exact hlt z hz
        · intro z hz
          rcases List.mem_cons.mp hz with hz | hz
          · exact hz ▸ Nat.le_of_lt (Nat.lt_of_not_le hy)
          · exact hle z hz

theorem publishAll_messageStore {α : Type} (calls : List (PublishCall α)) (w : World α) :
    (publishAll calls w).messageStore = w.messageStore ++ calls.map PublishCall.message := by
  induction calls generalizing w with
  | nil => simp [publishAll]
  | cons c cs ih =>
    simp [publishAll, List.foldl_cons, sendMessage, PublishCall.message] at ih ⊢
    rw [ih]
    simp [sendMessage, List.append_assoc]

theorem signalValue_setSignal {α : Type} (key : String)
    (val : Option (MicroFrontendMessage α))
    (l : List (String × Option (MicroFrontendMessage α))) :
    signalValue key (setSignal key val l) = val := by
  induction l with
  | nil => simp [setSignal, signalValue]
  | cons p rest ih =>
    obtain ⟨k, v⟩ := p
    by_cases hk : k == key
    · simp [setSignal, hk, signalValue]
    · simp [setSignal, hk, signalValue, ih]

/-- C1: for every sequence of sendMessage calls starting from the empty
store, getMessages(owner) with no filter returns exactly the messages whose
target field equals owner, in publish order; in particular, after the single
publish from "shell" to "one" with type "default" and payload "hi", the
query for "one" is the one-element list holding that record and the query
for "two" is empty. -/
theorem claim_C1_query_publish_order {α : Type} (calls : List (PublishCall α)) (owner : String) :
    getMessages owner (publishAll calls (@emptyWorld α)).messageStore none
      = (calls.map PublishCall.message).filter (fun m => m.«to» == owner) ∧
    getMessages "one"
      (publishAll [PublishCall.mk "shell" "one" "default" "hi" 5] (@emptyWorld String)).messageStore
      none = [mkMessage "shell" "one" "default" "hi" 5] ∧
    getMessages "two"
      (publishAll [PublishCall.mk "shell" "one" "default" "hi" 5] (@emptyWorld String)).messageStore
      none = [] := by
  refine ⟨?_, by decide, by decide⟩
  rw [publishAll_messageStore]
  simp [emptyWorld, getMessages, strOptFalsy]

/-- C2 (amended): getLatestMessage(owner, type) returns the record with the
maximum timestamp among the records matching (owner, type) and none when no
record matches; when several matching records share the maximal timestamp it
returns the EARLIEST inserted of them, because the stable descending sort
keeps insertion order among equal timestamps. The original claim said the
most recently inserted wins the tie; `claim_C2_counterexample` refutes that
reading. -/
theorem claim_C2_latest_max_timestamp {α : Type} (owner type : String)
    (store : List (MicroFrontendMessage α)) :
    (getLatestMessage owner type store = none ↔ matchingMessages owner type store = []) ∧
    ∀ r, getLatestMessage owner type store = some r →
      ∃ l1 l2, matchingMessages owner type store = l1 ++ r :: l2 ∧
        (∀ x ∈ l1, x.timestamp < r.timestamp) ∧
        (∀ x ∈ matchingMessages owner type store, x.timestamp ≤ r.timestamp) := by
  constructor
  · rw [getLatestMessage, head?_sortByTimestampDesc]
    exact firstMaxByTimestamp_eq_none _
  · intro r h
    rw [getLatestMessage, head?_sortByTimestampDesc] at h
    exact firstMaxByTimestamp_spec _ r h

/-- C2 counterexample: two records to the same (owner, type) with the same
timestamp; getLatestMessage returns the first inserted (payload a), which is
a different record than the most recently inserted one (payload b), refuting
the claimed most-recent tie-break. -/
theorem claim_C2_counterexample :
    getLatestMessage "one" "t"
        [mkMessage "s" "one" "t" "a" 7, mkMessage "s" "one" "t" "b" 7]
      = some (mkMessage "s" "one" "t" "a" 7) ∧
    mkMessage "s" "one" "t" "a" 7 ≠ mkMessage "s" "one" "t" "b" 7 := by
  exact ⟨by decide, by decide⟩

/-- Witness for C2 at a concrete one-record store. -/
theorem claim_C2_witness :
    ∃ l1 l2,
      matchingMessages "one" "t" [mkMessage "s" "one" "t" "a" 7]
        = l1 ++ mkMessage "s" "one" "t" "a" 7 :: l2 ∧
      (∀ x ∈ l1, x.timestamp < (mkMessage "s" "one" "t" "a" 7).timestamp) ∧
      (∀ x ∈ matchingMessages "one" "t" [mkMessage "s" "one" "t" "a" 7],
        x.timestamp ≤ (mkMessage "s" "one" "t" "a" 7).timestamp) :=
  (claim_C2_latest_max_timestamp "one" "t" [mkMessage "s" "one" "t" "a" 7]).2
    (mkMessage "s" "one" "t" "a" 7) (by decide)

/-- C3: when the registry window.CentralizedAPI is not yet set, both the
shell service sendMessageToMicroFrontend and the feature app sendMessageTo
do not throw (they are total functions here), append one warning, and change
nothing else: store, signals, dispatched events all stay as they were. -/
theorem claim_C3_publish_before_init {α : Type} (w : World α)
    (targetMf type : String) (payload : α) (now : Nat)
    (appName : String) (message : α) (target type2 : String) (now2 : Nat)
    (h : w.apiOwners = none) :
    sendMessageToMicroFrontend targetMf type payload now w
      = { w with warnings := w.warnings ++
          ["Shell API not available. Make sure the communication service is initialized."] } ∧
    sendMessageTo appName message target type2 now2 w
      = { w with warnings := w.warnings ++
          [appName ++ " API not available. Make sure the application shell has initialized the communication API."] } := by
  have hs : apiAvailable SHELL_NAME w = false := by simp [apiAvailable, h]
  have ha : apiAvailable appName w = false := by simp [apiAvailable, h]
  constructor
  · simp [sendMessageToMicroFrontend, hs]
  · simp [sendMessageTo, ha]

/-- Witness for C3 at the uninitialized world. -/
theorem claim_C3_witness :
    sendMessageToMicroFrontend "feature-one-app" "default" "hi" 3 (@emptyWorld String)
      = { @emptyWorld String with warnings := (@emptyWorld String).warnings ++
          ["Shell API not available. Make sure the communication service is initialized."] } ∧
    sendMessageTo "feature-two-app" "msg" "feature-one-app" "default" 4 (@emptyWorld String)
      = { @emptyWorld String with warnings := (@emptyWorld String).warnings ++
          ["feature-two-app" ++ " API not available. Make sure the application shell has initialized the communication API."] } :=
  claim_C3_publish_before_init (@emptyWorld String) "feature-one-app" "default" "hi" 3
    "feature-two-app" "msg" "feature-one-app" "default" 4 rfl

/-- C4: a dispatched notification for a record addressed to X is appended
exactly once to the message list of a subscriber registered for X, and a
subscriber registered for some other identity Y observes nothing. -/
theorem claim_C4_subscriber_filtering {α : Type} (m : MicroFrontendMessage α)
    (sx sy : SubscriberState α) (hx : sx.appName = m.«to») (hy : sy.appName ≠ m.«to») :
    (subscriberHandleEvent m sx).messages = sx.messages ++ [m] ∧
    subscriberHandleEvent m sy = sy := by
  constructor
  · have hb : (m.«to» == sx.appName) = true := by rw [hx]; exact beq_self_eq_true _
    simp [subscriberHandleEvent, hb]
  · have hb : (m.«to» == sy.appName) = false := by
      rw [beq_eq_false_iff_ne]
      exact fun hh => hy hh.symm
    simp [subscriberHandleEvent, hb]

/-- Witness for C4 with a message to feature-two-app, one subscriber holding
that identity and one holding the identity of feature-one-app. -/
theorem claim_C4_witness :
    (subscriberHandleEvent (mkMessage "shell" "feature-two-app" "default" "hi" 9)
        (SubscriberState.mk "feature-two-app" [])).messages = [] ++
        [mkMessage "shell" "feature-two-app" "default" "hi" 9] ∧
    subscriberHandleEvent (mkMessage "shell" "feature-two-app" "default" "hi" 9)
        (SubscriberState.mk "feature-one-app" [])
      = SubscriberState.mk "feature-one-app" [] :=
  claim_C4_subscriber_filtering (mkMessage "shell" "feature-two-app" "default" "hi" 9)
    (SubscriberState.mk "feature-two-app" []) (SubscriberState.mk "feature-one-app" [])
    rfl (by decide)

/-- C5: the store is append-only: every operation of the service leaves the
message store with its previous records unchanged, in place and in order, at
most appending at the end. -/
theorem claim_C5_append_only {α : Type} (op : ServiceOp α) (w : World α) :
    ∃ tail, (step op w).messageStore = w.messageStore ++ tail := by
  cases op with
  | send owner target type payload now =>
    exact ⟨[mkMessage owner target type payload now], rfl⟩
  | sendToMf targetMf type payload now =>
    by_cases h : apiAvailable SHELL_NAME w = true
    · exact ⟨[mkMessage SHELL_NAME targetMf type payload now],
        by simp [step, sendMessageToMicroFrontend, h, sendMessage]⟩
    · exact ⟨[], by simp [step, sendMessageToMicroFrontend, h]⟩
  | sendTo appName message target type now =>
    by_cases h : apiAvailable appName w = true
    · exact ⟨[mkMessage appName target type message now],
        by simp [step, sendMessageTo, h, sendMessage]⟩
    · exact ⟨[], by simp [step, sendMessageTo, h]⟩
  | getMsgs owner filterType => exact ⟨[], by simp [step]⟩
  | getLatest owner type => exact ⟨[], by simp [step]⟩
  | handleEvt m => exact ⟨[], by simp [step, handleMessageEvent]⟩
  | initApi mfs => exact ⟨[], by simp [step]⟩

/-- C6: sendMessage builds exactly one record whose source is the owner of
the API handle, whose target, type and payload are the arguments and whose
timestamp is the current time, appends exactly that record to the store, and
dispatches exactly one notification carrying that record. -/
theorem claim_C6_send_constructs_appends_broadcasts {α : Type} (w : World α)
    (owner target type : String) (payload : α) (now : Nat) :
    (sendMessage owner target type payload now w).messageStore
      = w.messageStore ++ [mkMessage owner target type payload now] ∧
    (sendMessage owner target type payload now w).dispatchedEvents
      = w.dispatchedEvents ++ [mkMessage owner target type payload now] ∧
    (mkMessage owner target type payload now).«from» = owner ∧
    (mkMessage owner target type payload now).«to» = target ∧
    (mkMessage owner target type payload now).type = type ∧
    (mkMessage owner target type payload now).payload = payload ∧
    (mkMessage owner target type payload now).timestamp = now :=
  ⟨rfl, rfl, rfl, rfl, rfl, rfl, rfl⟩

/-- C7 (amended): after publishing payload a and then payload b to the same
(from, to, type), getLatestMessage returns the record with payload b when
the second publish carries a strictly larger timestamp; with equal
timestamps the stable sort returns the first record instead, see
`claim_C7_counterexample`. -/
theorem claim_C7_latest_after_two_publishes {α : Type} (owner target type : String)
    (pa pb : α) (n1 n2 : Nat) (h : n1 < n2) :
    getLatestMessage target type
        ((sendMessage owner target type pb n2
          (sendMessage owner target type pa n1 (@emptyWorld α))).messageStore)
      = some (mkMessage owner target type pb n2) := by
  have hn : ¬ n2 ≤ n1 := Nat.not_le_of_lt h
  simp [sendMessage, emptyWorld, getLatestMessage, matchingMessages, sortByTimestampDesc,
        tsInsert, mkMessage, hn]

/-- C7 counterexample: when the two publishes receive equal timestamps, the
stable descending sort keeps the first record in front, so getLatestMessage
returns the record with payload a, not the claimed b. -/
theorem claim_C7_counterexample :
    getLatestMessage "one" "default"
        ((sendMessage "shell" "one" "default" "b" 7
          (sendMessage "shell" "one" "default" "a" 7 (@emptyWorld String))).messageStore)
      = some (mkMessage "shell" "one" "default" "a" 7) ∧
    mkMessage "shell" "one" "default" "a" 7 ≠ mkMessage "shell" "one" "default" "b" 7 := by
  exact ⟨by decide, by decide⟩

/-- Witness for C7 with timestamps 1 and 2. -/
theorem claim_C7_witness :
    getLatestMessage "one" "default"
        ((sendMessage "shell" "one" "default" "b" 2
          (sendMessage "shell" "one" "default" "a" 1 (@emptyWorld String))).messageStore)
      = some (mkMessage "shell" "one" "default" "b" 2) :=
  claim_C7_latest_after_two_publishes "shell" "one" "default" "a" "b" 1 2 (by decide)

/-- C8: calling getMessages with the empty string as filterType behaves
exactly like calling it with no filter, because the empty string is falsy in
the guard, so every message addressed to the owner is returned regardless of
type. -/
theorem claim_C8_empty_filter {α : Type} (owner : String)
    (store : List (MicroFrontendMessage α)) :
    getMessages owner store (some "") = getMessages owner store none := by
  simp [getMessages, strOptFalsy]

/-- C9: getMessages and getLatestMessage are pure reads: both operate on a
freshly filtered copy of the store, so performing them leaves the whole
state unchanged and a later getMessages still sees the store in insertion
order. -/
theorem claim_C9_reads_pure {α : Type} (w : World α) (owner owner2 type : String)
    (filterType filterType2 : Option String) :
    step (ServiceOp.getMsgs owner filterType) w = w ∧
    step (ServiceOp.getLatest owner type) w = w ∧
    getMessages owner2 (step (ServiceOp.getLatest owner type) w).messageStore filterType2
      = getMessages owner2 w.messageStore filterType2 :=
  ⟨rfl, rfl, rfl⟩

/-- C10: after the shell listener processes any message, the signal keyed
from:to:default holds that message, for every message type, not only for
type default. -/
theorem claim_C10_default_signal {α : Type} (m : MicroFrontendMessage α) (w : World α) :
    signalValue (m.«from» ++ ":" ++ m.«to» ++ ":default")
      (handleMessageEvent m w).messageSignals = some m := by
  simp only [handleMessageEvent]
  exact signalValue_setSignal _ _ _
